import Mathlib

/-!
Verification of the room/auction game server (src/server/index.js).

The server state is embedded shallowly: each socket.io handler and helper
function of the source becomes a pure Lean function on a `Room` value.
JavaScript in-place mutation of the players array is rendered as
`List.map` / `updFirst` (mutate the first element matched by a predicate,
as `Array.prototype.find` followed by field assignments does).
Randomness (`randomItem()`) is threaded as an explicit argument, and the
client-supplied bid amount is modelled as a mathematical integer
(`Math.floor(amount / 10000)` on integers is `Int.fdiv`).  Timers, logging
and the transport layer are outside the embedded state; emitted payloads
that matter (the sanitized per-recipient view and the `game:ended` rooms)
are modelled as explicit projection functions.
-/

/-- A player record, as created in the `room:create` / `room:join` handlers. -/
structure Player where
  id : String
  socketId : String
  name : String
  balance : Nat
  hold : Nat
  bid : Nat
  items : List String
  willParticipate : Option Bool
  readyPart : Bool
  readyBid : Bool
deriving Repr, DecidableEq, Inhabited

/-- One entry of `room.roundLogs`, pushed by `nextRound`. -/
structure RoundLog where
  round : Nat
  item : String
  participants : List String
  winners : List String
deriving Repr, DecidableEq, Inhabited

/-- The room state kept in the server's `rooms` map (timers and timestamps,
which live outside the game logic, are omitted). -/
structure Room where
  id : String
  hostName : String
  hostSocketId : String
  boardMode : Bool
  started : Bool
  gameOver : Bool
  round : Nat
  phase : String
  currentItem : String
  participants : List String
  lastWinners : List String
  lastItem : String
  roundLogs : List RoundLog
  finalWinners : List String
  players : List Player
deriving Repr, DecidableEq, Inhabited

/-- A player as seen in a sanitized (per-recipient) projection. -/
structure SanPlayer where
  id : String
  name : String
  balance : Option Nat
  hold : Option Nat
  itemCount : Nat
  items : Option (List String)
  readyPart : Bool
  readyBid : Bool
  willParticipate : Option Bool
  isHost : Bool
deriving Repr, DecidableEq, Inhabited

/-- A sanitized room projection, the payload of `room:updated` and friends. -/
structure SanRoom where
  id : String
  hostName : String
  boardMode : Bool
  started : Bool
  gameOver : Bool
  round : Nat
  phase : String
  currentItem : String
  participants : List String
  lastWinners : List String
  lastItem : String
  roundLogs : List RoundLog
  finalWinners : List String
  players : List SanPlayer
deriving Repr, DecidableEq, Inhabited

/-- Mutate the first element satisfying `pred` (JS `array.find(...)` followed
by in-place field assignment). -/
def updFirst (pred : Player → Bool) (f : Player → Player) : List Player → List Player
  | [] => []
  | p :: ps => if pred p then f p :: ps else p :: updFirst pred f ps

/-- `sanitizeRoom(room, forPlayer)` from the source: structural fields are
shared, `balance` / `hold` / `items` only for the named recipient, others get
`null` and an item count; `roundLogs` is `slice(-10)`. -/
def sanitizeRoom (room : Room) (forPlayer : Option String) : SanRoom :=
  { id := room.id
    hostName := room.hostName
    boardMode := room.boardMode
    started := room.started
    gameOver := room.gameOver
    round := room.round
    phase := room.phase
    currentItem := room.currentItem
    participants := room.participants
    lastWinners := room.lastWinners
    lastItem := room.lastItem
    roundLogs := room.roundLogs.drop (room.roundLogs.length - 10)
    finalWinners := room.finalWinners
    players := room.players.map (fun p =>
      { id := p.id
        name := p.name
        balance := if some p.name = forPlayer then some p.balance else none
        hold := if some p.name = forPlayer then some p.hold else none
        itemCount := p.items.length
        items := if some p.name = forPlayer then some p.items else none
        readyPart := p.readyPart
        readyBid := p.readyBid
        willParticipate := p.willParticipate
        isHost := p.name == room.hostName }) }

/-- `checkWin(items)` from the source: `any5`, else `same3`, else `diff4`. -/
def checkWin (items : List String) : Option String :=
  if items.length = 0 then none
  else if 5 ≤ items.length then some "any5"
  else if items.any (fun it => 3 ≤ items.count it) then some "same3"
  else if 4 ≤ items.dedup.length then some "diff4"
  else none

/-- The per-player reset of `resetRoundState`: clear the round flags and the
informational `bid`; `balance`, `hold` and `items` are untouched. -/
def resetPlayer (p : Player) : Player :=
  { p with willParticipate := none, readyPart := false, readyBid := false, bid := 0 }

/-- `resetRoundState(room)` from the source. -/
def resetRoundState (room : Room) : Room :=
  { room with
    phase := "choose"
    participants := []
    players := room.players.map resetPlayer }

/-- `nextRound(roomId, winners, item)` from the source: bump the round, record
the outcome, append a round log entry, end the game if some player satisfies
`checkWin`, otherwise reset for the next `choose` phase (`rand` stands for the
`randomItem()` draw). -/
def nextRound (room : Room) (winners : List String) (item : String) (rand : String) : Room :=
  let r1 : Room :=
    { room with
      round := room.round + 1
      lastWinners := winners
      lastItem := item
      roundLogs := room.roundLogs ++
        [{ round := room.round + 1, item := item,
           participants := room.participants, winners := winners }] }
  let gameWinners := (r1.players.filter (fun p => (checkWin p.items).isSome)).map (fun p => p.name)
  if 0 < gameWinners.length then
    { r1 with gameOver := true, finalWinners := gameWinners }
  else
    let r2 := resetRoundState r1
    { r2 with currentItem := if r2.boardMode then "" else rand }

/-- The bidders of the current auction: players whose name is in
`room.participants` (`room.players.filter(p => room.participants.includes(p.name))`). -/
def roomBidders (room : Room) : List Player :=
  room.players.filter (fun p => room.participants.contains p.name)

/-- `Math.max(0, ...holds)` over the bidders' holds. -/
def maxBidHold (room : Room) : Nat :=
  ((roomBidders room).map (fun p => p.hold)).foldr max 0

/-- `holds.every(h => h === 0)` over the bidders' holds. -/
def allHoldsZero (room : Room) : Bool :=
  ((roomBidders room).map (fun p => p.hold)).all (fun h => h == 0)

/-- The winners list computed in `settleAuction`: all bidders when every hold
is zero, else the bidders whose hold equals the maximum (when positive). -/
def settleWinners (room : Room) : List String :=
  if allHoldsZero room then (roomBidders room).map (fun p => p.name)
  else if 0 < maxBidHold room then
    ((roomBidders room).filter (fun p => p.hold == maxBidHold room)).map (fun p => p.name)
  else []

/-- The per-bidder mutation of `settleAuction`: in the all-zero case refund and
award the item to everyone; otherwise winners keep their spent hold and get the
item, losers are refunded; non-participants are untouched here. -/
def auctionBidderUpdate (room : Room) (p : Player) : Player :=
  if room.participants.contains p.name then
    if allHoldsZero room then
      { p with balance := p.balance + p.hold, hold := 0, items := p.items ++ [room.currentItem] }
    else if 0 < maxBidHold room then
      if (settleWinners room).contains p.name then
        { p with hold := 0, items := p.items ++ [room.currentItem] }
      else { p with balance := p.balance + p.hold, hold := 0 }
    else p
  else p

/-- The trailing loop of `settleAuction`: defensively refund every
non-participant's hold. -/
def nonBidderRefund (room : Room) (p : Player) : Player :=
  if room.participants.contains p.name then p
  else { p with balance := p.balance + p.hold, hold := 0 }

/-- `settleAuction(roomId)` from the source. -/
def settleAuction (room : Room) (rand : String) : Room :=
  nextRound
    { room with players := (room.players.map (auctionBidderUpdate room)).map (nonBidderRefund room) }
    (settleWinners room) room.currentItem rand

/-- The winner mutation of `settleSingleBidder`: refund the hold and award the item. -/
def singleWinnerUpdate (item : String) (p : Player) : Player :=
  { p with balance := p.balance + p.hold, hold := 0, items := p.items ++ [item] }

/-- The trailing loop of `settleSingleBidder`: refund everyone except the winner. -/
def singleOtherRefund (winnerName : String) (p : Player) : Player :=
  if p.name ≠ winnerName then { p with balance := p.balance + p.hold, hold := 0 } else p

/-- `settleSingleBidder(roomId, winnerName)` from the source. -/
def settleSingleBidder (room : Room) (winnerName : String) (rand : String) : Room :=
  nextRound
    { room with players :=
        (updFirst (fun p => p.name == winnerName) (singleWinnerUpdate room.currentItem)
            room.players).map (singleOtherRefund winnerName) }
    [winnerName] room.currentItem rand

/-- Names of the players who opted in, in player (join) order, as computed in
`checkPhaseAdvance`. -/
def partNames (room : Room) : List String :=
  (room.players.filter (fun p => p.willParticipate == some true)).map (fun p => p.name)

/-- The room after `checkPhaseAdvance` stores the computed participants
(`room.participants = participants`). -/
def cpaRoom1 (room : Room) : Room := { room with participants := partNames room }

/-- The room after `checkPhaseAdvance` additionally assigns a random current
item when none is set outside board mode. -/
def cpaRoom2 (room : Room) (r1 : String) : Room :=
  if (cpaRoom1 room).boardMode = false ∧ (cpaRoom1 room).currentItem = "" then
    { cpaRoom1 room with currentItem := r1 }
  else cpaRoom1 room

/-- `checkPhaseAdvance(roomId)` from the source (`r1` is the `randomItem()`
draw used when no current item is set, `r2` the draw used by `nextRound`). -/
def checkPhaseAdvance (room : Room) (r1 r2 : String) : Room :=
  if room.phase ≠ "choose" then room
  else if room.players.all (fun p => p.readyPart) = false then room
  else if (partNames room).length = 0 then
    nextRound (cpaRoom2 room r1) [] (cpaRoom2 room r1).currentItem r2
  else if (partNames room).length = 1 then
    settleSingleBidder (cpaRoom2 room r1) ((partNames room).headD "") r2
  else { cpaRoom2 room r1 with phase := "bid" }

/-- `checkBidSettle(roomId)` from the source. -/
def checkBidSettle (room : Room) (rand : String) : Room :=
  if room.phase ≠ "bid" then room
  else if (roomBidders room).all (fun p => p.readyBid) = false then room
  else settleAuction room rand

/-- The clamped bid of the `game:confirmBid` handler:
`Math.max(0, Math.min(Math.floor(amount / 10000) * 10000, maxBid))`. -/
def bidValue (amount : Int) (maxBid : Nat) : Nat :=
  (max 0 (min (Int.fdiv amount 10000 * 10000) (maxBid : Int))).toNat

/-- The player mutation of the `game:confirmBid` handler. -/
def bidRecord (p : Player) (amount : Int) : Player :=
  let maxBid := p.balance + p.hold
  let b := bidValue amount maxBid
  { p with hold := b, bid := b, balance := maxBid - b, readyBid := true }

/-- The `game:confirmBid` handler. -/
def confirmBid (room : Room) (sockId : String) (amount : Int) (rand : String) : Room :=
  if ¬room.started ∨ room.gameOver ∨ room.phase ≠ "bid" then room
  else
    match room.players.find? (fun p => p.socketId == sockId) with
    | none => room
    | some player =>
      if player.readyBid ∨ ¬room.participants.contains player.name then room
      else
        checkBidSettle
          { room with players :=
              updFirst (fun p => p.socketId == sockId) (fun p => bidRecord p amount) room.players }
          rand

/-- The player mutation of the `game:cancelBid` handler. -/
def cancelUpdate (p : Player) : Player :=
  { p with balance := p.balance + p.hold, hold := 0, bid := 0, readyBid := true }

/-- The `game:cancelBid` handler. -/
def cancelBid (room : Room) (sockId : String) (rand : String) : Room :=
  if ¬room.started ∨ room.gameOver ∨ room.phase ≠ "bid" then room
  else
    match room.players.find? (fun p => p.socketId == sockId) with
    | none => room
    | some player =>
      if player.readyBid ∨ ¬room.participants.contains player.name then room
      else
        checkBidSettle
          { room with players :=
              updFirst (fun p => p.socketId == sockId) cancelUpdate room.players }
          rand

/-- The player mutation of the `game:lockPart` handler (opting out pays the
50000 bonus). -/
def lockPartUpdate (will : Bool) (p : Player) : Player :=
  let p2 : Player := { p with willParticipate := some will, readyPart := true }
  if will = false then { p2 with balance := p2.balance + 50000 } else p2

/-- The `game:lockPart` handler (`will` is `willParticipate === true`). -/
def lockPart (room : Room) (sockId : String) (will : Bool) (r1 r2 : String) : Room :=
  if ¬room.started ∨ room.gameOver ∨ room.phase ≠ "choose" then room
  else if room.boardMode ∧ room.currentItem = "" then room
  else
    match room.players.find? (fun p => p.socketId == sockId) with
    | none => room
    | some player =>
      if player.readyPart then room
      else
        checkPhaseAdvance
          { room with players :=
              updFirst (fun p => p.socketId == sockId) (lockPartUpdate will) room.players }
          r1 r2

/-- The `game:setItem` handler (board mode, host only; note the source checks
`started` and `boardMode` but not `gameOver`). -/
def setItem (room : Room) (sockId : String) (item : String) : Room :=
  if ¬room.started ∨ ¬room.boardMode then room
  else if sockId ≠ room.hostSocketId then room
  else
    let r := resetRoundState room
    { r with currentItem := item }

/-- The `game:end` handler: host only; sets `gameOver` and emits `game:ended`
whose `room` payload is `sanitizeRoom(room)` with no recipient. Returns the
new state together with the emitted payload. -/
def gameEnd (room : Room) (sockId : String) : Room × Option SanRoom :=
  if sockId ≠ room.hostSocketId then (room, none)
  else
    let r : Room := { room with gameOver := true }
    (r, some (sanitizeRoom r none))

/-- The `players` field of the `finalRoom` object emitted by `nextRound` on a
natural game end: the raw player records (`{ ...p, balance: p.balance,
items: p.items }`). -/
def finalRoomPayloadPlayers (room : Room) : List Player :=
  room.players.map (fun p => { p with balance := p.balance, items := p.items })

/-- `handleLeave(socket)` from the source; `none` means the room was deleted
via `cleanupRoom`. -/
def handleLeave (room : Room) (sockId : String) : Option Room :=
  match room.players.findIdx? (fun p => p.socketId == sockId) with
  | none => some room
  | some idx =>
    let wasHost := sockId == room.hostSocketId
    let players := room.players.eraseIdx idx
    if wasHost ∨ players.length = 0 then none
    else
      let r1 : Room := { room with players := players }
      let r2 : Room :=
        if wasHost ∧ 0 < players.length then
          { r1 with hostSocketId := (players.headD default).socketId,
                    hostName := (players.headD default).name }
        else r1
      some r2

/-- JavaScript `String.prototype.trim`: strip whitespace from both ends
(written over the character list so that it is kernel-computable). -/
def trimName (s : String) : String :=
  ⟨((s.data.dropWhile Char.isWhitespace).reverse.dropWhile Char.isWhitespace).reverse⟩

/-- The `room:create` handler (the generated room id is taken as a parameter;
`none` models the empty-nickname error reply). -/
def roomCreate (hostNameRaw : String) (boardMode : Bool) (sockId roomId : String) : Option Room :=
  if trimName hostNameRaw = "" then none
  else
    let name := (trimName hostNameRaw).take 10
    some
      { id := roomId
        hostName := name
        hostSocketId := sockId
        boardMode := boardMode
        started := false
        gameOver := false
        round := 0
        phase := "choose"
        currentItem := ""
        participants := []
        lastWinners := []
        lastItem := ""
        roundLogs := []
        finalWinners := []
        players := [{ id := "P1", socketId := sockId, name := name, balance := 1000000,
                      hold := 0, bid := 0, items := [], willParticipate := none,
                      readyPart := false, readyBid := false }] }

/-- The `room:join` handler: an existing name is a reconnection (socket id
rebound), a new name is added only if the room has not started and has fewer
than 8 players; error replies leave the room unchanged. -/
def roomJoin (room : Room) (sockId : String) (playerNameRaw : String) : Room :=
  let name := (trimName playerNameRaw).take 10
  if name = "" then room
  else
    match room.players.find? (fun p => p.name == name) with
    | some _ =>
      let rebound :=
        updFirst (fun p => p.name == name) (fun p => { p with socketId := sockId }) room.players
      { room with players := rebound }
    | none =>
      if room.started then room
      else if 8 ≤ room.players.length then room
      else
        { room with players := room.players ++
            [{ id := "P" ++ toString (room.players.length + 1), socketId := sockId,
               name := name, balance := 1000000, hold := 0, bid := 0, items := [],
               willParticipate := none, readyPart := false, readyBid := false }] }

/-- The `game:start` handler (host only, at least 3 players; `rand` is the
`randomItem()` draw used outside board mode). -/
def gameStart (room : Room) (sockId : String) (rand : String) : Room :=
  if sockId ≠ room.hostSocketId then room
  else if room.players.length < 3 then room
  else
    let r : Room := { room with started := true, phase := "choose", round := 0 }
    if r.boardMode = false then { r with currentItem := rand } else r

/-- Total liquid money of a list of players: the sum of `balance + hold`. -/
def totalMoney (ps : List Player) : Nat :=
  (ps.map (fun p => p.balance + p.hold)).sum

/-- The holds spent in an auction settlement: the holds of the bidders whose
name is among the computed winners. -/
def settleWinnersHoldSum (room : Room) : Nat :=
  (((roomBidders room).filter (fun p => (settleWinners room).contains p.name)).map
      (fun p => p.hold)).sum

/-- A freshly created lobby: host `A` on socket `s1`, non-board mode. -/
def demoLobby : Room := (roomCreate "A" false "s1" "RA").getD default

/-- A started three-player room in non-board mode, reached by a create, two
joins and a `game:start`. -/
def demoStarted : Room :=
  gameStart (roomJoin (roomJoin demoLobby "s2" "B") "s3" "C") "s1" "x"

/-- A freshly created lobby in board mode. -/
def demoBoardLobby : Room := (roomCreate "A" true "s1" "RB").getD default

/-- A started three-player room in board mode. -/
def demoBoardStarted : Room :=
  gameStart (roomJoin (roomJoin demoBoardLobby "s2" "B") "s3" "C") "s1" "x"

/-- One complete no-participation round of `demoStarted`: all three players
decline; the third `lockPart` fires the phase-advance check and `nextRound`. -/
def stepRound (room : Room) : Room :=
  lockPart (lockPart (lockPart room "s1" false "x" "x") "s2" false "x" "x") "s3" false "x" "x"

/-- The hold a player loses in `settleAuction`: participants whose name is
among the winners of a not-all-zero auction spend their hold. -/
def auctionSpent (room : Room) (p : Player) : Nat :=
  if room.participants.contains p.name && (settleWinners room).contains p.name
      && !(allHoldsZero room) then p.hold
  else 0

set_option maxRecDepth 10000

theorem totalMoney_nil : totalMoney [] = 0 := rfl

theorem totalMoney_cons (p : Player) (ps : List Player) :
    totalMoney (p :: ps) = p.balance + p.hold + totalMoney ps := by
  simp [totalMoney]

theorem totalMoney_map_spent (g : Player → Player) (s : Player → Nat)
    (h : ∀ p, (g p).balance + (g p).hold + s p = p.balance + p.hold) (ps : List Player) :
    totalMoney (ps.map g) + (ps.map s).sum = totalMoney ps := by
  induction ps with
  | nil => rfl
  | cons p ps ih =>
    simp only [List.map_cons, totalMoney_cons, List.sum_cons]
    have := h p
    omega

theorem totalMoney_map_eq (g : Player → Player)
    (h : ∀ p, (g p).balance + (g p).hold = p.balance + p.hold) (ps : List Player) :
    totalMoney (ps.map g) = totalMoney ps := by
  have h2 := totalMoney_map_spent g (fun _ => 0) (fun p => by simpa using h p) ps
  simpa using h2

theorem totalMoney_updFirst (pred : Player → Bool) (f : Player → Player)
    (h : ∀ p, (f p).balance + (f p).hold = p.balance + p.hold) (ps : List Player) :
    totalMoney (updFirst pred f ps) = totalMoney ps := by
  induction ps with
  | nil => rfl
  | cons p ps ih =>
    by_cases hp : pred p
    · simp [updFirst, hp, totalMoney_cons, h p]
    · simp [updFirst, hp, totalMoney_cons, ih]

theorem updFirst_length (pred : Player → Bool) (f : Player → Player) (ps : List Player) :
    (updFirst pred f ps).length = ps.length := by
  induction ps with
  | nil => rfl
  | cons p ps ih =>
    by_cases hp : pred p <;> simp [updFirst, hp, ih]

theorem nextRound_totalMoney (room : Room) (w : List String) (i rand : String) :
    totalMoney (nextRound room w i rand).players = totalMoney room.players := by
  unfold nextRound
  dsimp only
  split
  · rfl
  · simpa [resetRoundState] using totalMoney_map_eq resetPlayer (fun p => rfl) room.players

theorem nextRound_round (room : Room) (w : List String) (i rand : String) :
    (nextRound room w i rand).round = room.round + 1 := by
  unfold nextRound
  dsimp only
  split <;> simp [resetRoundState]

theorem nextRound_lastWinners (room : Room) (w : List String) (i rand : String) :
    (nextRound room w i rand).lastWinners = w := by
  unfold nextRound
  dsimp only
  split <;> simp [resetRoundState]

theorem nextRound_lastItem (room : Room) (w : List String) (i rand : String) :
    (nextRound room w i rand).lastItem = i := by
  unfold nextRound
  dsimp only
  split <;> simp [resetRoundState]

theorem nextRound_phase (room : Room) (w : List String) (i rand : String)
    (h : room.phase = "choose") :
    (nextRound room w i rand).phase = "choose" := by
  unfold nextRound
  dsimp only
  split <;> simp [resetRoundState, h]

theorem nextRound_roundLogs_length (room : Room) (w : List String) (i rand : String) :
    (nextRound room w i rand).roundLogs.length = room.roundLogs.length + 1 := by
  unfold nextRound
  dsimp only
  split <;> simp [resetRoundState]

theorem nextRound_players (room : Room) (w : List String) (i rand : String) :
    (nextRound room w i rand).players = room.players
    ∨ (nextRound room w i rand).players = room.players.map resetPlayer := by
  unfold nextRound
  dsimp only
  split
  · exact Or.inl rfl
  · exact Or.inr (by simp [resetRoundState])

theorem moneyEq_auctionUpdate (room : Room) (p : Player) :
    (nonBidderRefund room (auctionBidderUpdate room p)).balance
      + (nonBidderRefund room (auctionBidderUpdate room p)).hold
      + auctionSpent room p
    = p.balance + p.hold := by
  unfold nonBidderRefund auctionBidderUpdate auctionSpent
  by_cases hpart : p.name ∈ room.participants
  · by_cases hz : allHoldsZero room
    · simp [hpart, hz]
    · by_cases hw : p.name ∈ settleWinners room
      · by_cases hmax : 0 < maxBidHold room
        · simp [hpart, hz, hmax, hw]
        · exfalso
          simp [settleWinners, hz, hmax] at hw
      · by_cases hmax : 0 < maxBidHold room
        · simp [hpart, hz, hmax, hw]
        · simp [hpart, hz, hmax, hw]
  · simp [hpart]

theorem sum_filter2_hold (q1 q2 : Player → Bool) (ps : List Player) :
    (((ps.filter q1).filter q2).map (fun p => p.hold)).sum
      = (ps.map (fun p => if q1 p && q2 p then p.hold else 0)).sum := by
  induction ps with
  | nil => rfl
  | cons p ps ih =>
    by_cases h1 : q1 p
    · rw [List.filter_cons_of_pos h1]
      by_cases h2 : q2 p
      · rw [List.filter_cons_of_pos h2, List.map_cons, List.sum_cons, List.map_cons,
          List.sum_cons, ih]
        have hvp : (if q1 p && q2 p then p.hold else 0) = p.hold := by simp [h1, h2]
        rw [hvp]
      · rw [List.filter_cons_of_neg h2, List.map_cons, List.sum_cons, ih]
        have hvp : (if q1 p && q2 p then p.hold else 0) = 0 := by simp [h2]
        rw [hvp]
        omega
    · rw [List.filter_cons_of_neg h1, List.map_cons, List.sum_cons, ih]
      have hvp : (if q1 p && q2 p then p.hold else 0) = 0 := by simp [h1]
      rw [hvp]
      omega

theorem sum_auctionSpent (room : Room) :
    (room.players.map (auctionSpent room)).sum = settleWinnersHoldSum room := by
  by_cases hz : allHoldsZero room
  · have hl : (room.players.map (auctionSpent room)).sum = 0 := by
      apply List.sum_eq_zero
      intro x hx
      rcases List.mem_map.mp hx with ⟨p, hp, rfl⟩
      simp [auctionSpent, hz]
    have hr : settleWinnersHoldSum room = 0 := by
      apply List.sum_eq_zero
      intro x hx
      rcases List.mem_map.mp hx with ⟨p, hp, rfl⟩
      have hpb : p ∈ roomBidders room := List.mem_of_mem_filter hp
      have hph := (List.all_eq_true.mp hz) p.hold (List.mem_map_of_mem _ hpb)
      simpa using hph
    rw [hl, hr]
  · have hfun : auctionSpent room = fun p =>
        if room.participants.contains p.name && (settleWinners room).contains p.name
        then p.hold else 0 := by
      funext p
      simp [auctionSpent, hz]
    rw [hfun]
    unfold settleWinnersHoldSum roomBidders
    exact (sum_filter2_hold _ _ _).symm

theorem settleAuction_money (room : Room) (rand : String) :
    totalMoney (settleAuction room rand).players + settleWinnersHoldSum room
      = totalMoney room.players := by
  unfold settleAuction
  rw [nextRound_totalMoney]
  dsimp only
  rw [List.map_map, ← sum_auctionSpent room]
  exact totalMoney_map_spent _ _ (fun p => moneyEq_auctionUpdate room p) room.players

theorem settleSingleBidder_money (room : Room) (w rand : String) :
    totalMoney (settleSingleBidder room w rand).players = totalMoney room.players := by
  unfold settleSingleBidder
  rw [nextRound_totalMoney]
  dsimp only
  rw [totalMoney_map_eq (singleOtherRefund w)
    (fun p => by unfold singleOtherRefund; split <;> simp)]
  exact totalMoney_updFirst _ _ (fun p => by simp [singleWinnerUpdate]) room.players

/-- Round 1 of a board-mode game: the host sets item `g`, `A` declines,
`B` and `C` opt in, so the room enters the bid phase. -/
def demoStale2 : Room :=
  lockPart (lockPart (lockPart (setItem demoBoardStarted "s1" "g") "s1" false "x" "x")
    "s2" true "x" "x") "s3" true "x" "x"

/-- `B` escrows a 20000 bid; `C` has not bid yet, so no settlement fires. -/
def demoStale3 : Room := confirmBid demoStale2 "s2" 20000 "x"

/-- Mid-bid, the host calls `game:setItem` (no phase guard): the round is
reset to `choose`, but `resetRoundState` does not clear holds, so `B` keeps a
stale escrowed hold of 20000. -/
def demoStale4 : Room := setItem demoStale3 "s1" "h"

/-- In the new round, `A` and `C` decline; only `B` is still to lock. -/
def demoStale5 : Room :=
  lockPart (lockPart demoStale4 "s1" false "x" "x") "s3" false "x" "x"

/-- The state right after `B` opts in, before the phase-advance check. -/
def demoStale6 : Room :=
  { demoStale5 with players := updFirst (fun p => p.socketId == "s2") (lockPartUpdate true) demoStale5.players }

/-- The room on which the run's single-participant settlement is invoked. -/
def staleSettleRoom : Room := cpaRoom2 demoStale6 "x"

/-- Counterexample to C1: in the reachable run built above (board-mode
`setItem` during a bid phase leaves `B` a stale hold of 20000), `B`'s final
`lockPart` invokes exactly the single-participant settlement
`settleSingleBidder staleSettleRoom "B"`; that settlement *refunds* the
winner's 20000 hold, so the total `balance + hold` is conserved instead of
decreasing by the winning participant's hold — the claimed equation is false
here. -/
theorem claim_C1_counterexample :
    lockPart demoStale5 "s2" true "x" "x" = settleSingleBidder staleSettleRoom "B" "x"
    ∧ staleSettleRoom.players.map (fun p => (p.name, p.hold)) = [("A", 0), ("B", 20000), ("C", 0)]
    ∧ ¬ (totalMoney (settleSingleBidder staleSettleRoom "B" "x").players
          + ((staleSettleRoom.players.filter (fun p => p.name == "B")).map
              (fun p => p.hold)).sum
        = totalMoney staleSettleRoom.players) := by
  exact ⟨by decide, by decide, by decide⟩

/-- Claim C1 (amended): across every multi-bidder auction settlement the sum
of `balance + hold` over all players decreases by exactly the sum of the
winning bidders' holds (losers' and non-participants' holds are refunded);
the single-participant settlement, however, refunds *every* hold including
the winner's, so there the total is always conserved (the decrease is zero),
even when a stale positive hold survives an interrupted bid phase. -/
theorem claim_C1_amended_settlement_money :
    (∀ room rand, totalMoney (settleAuction room rand).players + settleWinnersHoldSum room
        = totalMoney room.players)
    ∧ (∀ room w rand, totalMoney (settleSingleBidder room w rand).players
        = totalMoney room.players) :=
  ⟨settleAuction_money, settleSingleBidder_money⟩

theorem le_foldr_max (x : Nat) : ∀ l : List Nat, x ∈ l → x ≤ l.foldr max 0 := by
  intro l
  induction l with
  | nil => simp
  | cons a l ih =>
    intro hx
    rcases List.mem_cons.mp hx with rfl | hx
    · exact le_max_left _ _
    · exact le_trans (ih hx) (le_max_right _ _)

theorem maxBidHold_pos (room : Room) (hz : allHoldsZero room = false) :
    0 < maxBidHold room := by
  unfold allHoldsZero at hz
  unfold maxBidHold
  rcases List.all_eq_false.mp hz with ⟨x, hx, hne⟩
  have hle := le_foldr_max x _ hx
  have hx0 : x ≠ 0 := by simpa using hne
  omega

theorem forall2_map_self {R : Player → Player → Prop} (f : Player → Player)
    (ps : List Player) (h : ∀ p ∈ ps, R p (f p)) : List.Forall₂ R ps (ps.map f) := by
  induction ps with
  | nil => simp
  | cons p ps ih =>
    simp only [List.map_cons]
    exact List.Forall₂.cons (h p (by simp)) (ih (fun q hq => h q (by simp [hq])))

theorem forall2_comp {R S T : Player → Player → Prop}
    (hcomp : ∀ p q r, R p q → S q r → T p r) :
    ∀ ps qs rs, List.Forall₂ R ps qs → List.Forall₂ S qs rs → List.Forall₂ T ps rs := by
  intro ps qs rs h1
  induction h1 generalizing rs with
  | nil =>
    intro h2
    cases h2
    exact List.Forall₂.nil
  | cons hpq htail ih =>
    intro h2
    cases h2 with
    | cons hqr h2tail => exact List.Forall₂.cons (hcomp _ _ _ hpq hqr) (ih _ h2tail)

theorem nextRound_players_core (room : Room) (w : List String) (i rand : String) :
    List.Forall₂ (fun p q => q.name = p.name ∧ q.balance = p.balance ∧ q.hold = p.hold
      ∧ q.items = p.items) room.players (nextRound room w i rand).players := by
  rcases nextRound_players room w i rand with h | h <;> rw [h]
  · exact List.forall₂_same.mpr (fun p _ => ⟨rfl, rfl, rfl, rfl⟩)
  · exact forall2_map_self _ _ (fun p _ => ⟨rfl, rfl, rfl, rfl⟩)

theorem settleAuction_lastWinners (room : Room) (rand : String) :
    (settleAuction room rand).lastWinners = settleWinners room := by
  unfold settleAuction
  rw [nextRound_lastWinners]

theorem auctionUpdate_effect (room : Room) (p : Player) (hz : allHoldsZero room = false)
    (hpart : p.name ∈ room.participants) :
    (nonBidderRefund room (auctionBidderUpdate room p)).hold = 0
    ∧ (p.name ∈ settleWinners room →
        (nonBidderRefund room (auctionBidderUpdate room p)).balance = p.balance
        ∧ (nonBidderRefund room (auctionBidderUpdate room p)).items
            = p.items ++ [room.currentItem])
    ∧ (p.name ∉ settleWinners room →
        (nonBidderRefund room (auctionBidderUpdate room p)).balance = p.balance + p.hold
        ∧ (nonBidderRefund room (auctionBidderUpdate room p)).items = p.items) := by
  have hmax := maxBidHold_pos room hz
  unfold nonBidderRefund auctionBidderUpdate
  by_cases hw : p.name ∈ settleWinners room
  · simp [hpart, hz, hmax, hw]
  · simp [hpart, hz, hmax, hw]

/-- Claim C4: in every auction settlement, if all bidder holds are zero the
winners are exactly all participating players; otherwise the winners are
exactly the participating players whose hold equals the maximum hold, every
winner has a positive hold, each losing participant is refunded
(`balance + hold`), and winners' holds are spent (balance unchanged), the item
being appended to each winner's inventory. -/
theorem claim_C4_auction_winners (room : Room) (rand : String) :
    (allHoldsZero room = true →
        (settleAuction room rand).lastWinners = (roomBidders room).map (fun p => p.name))
    ∧ (allHoldsZero room = false →
        (settleAuction room rand).lastWinners
            = ((roomBidders room).filter (fun p => p.hold == maxBidHold room)).map
                (fun p => p.name)
          ∧ 0 < maxBidHold room
          ∧ (∀ w ∈ (settleAuction room rand).lastWinners,
              ∃ p ∈ roomBidders room, p.name = w ∧ 0 < p.hold)
          ∧ List.Forall₂ (fun p q =>
              p.name ∈ room.participants →
                q.hold = 0
                ∧ (p.name ∈ settleWinners room →
                    q.balance = p.balance ∧ q.items = p.items ++ [room.currentItem])
                ∧ (p.name ∉ settleWinners room →
                    q.balance = p.balance + p.hold ∧ q.items = p.items))
            room.players (settleAuction room rand).players) := by
  constructor
  · intro hz
    rw [settleAuction_lastWinners]
    unfold settleWinners
    simp [hz]
  · intro hz
    have hmax := maxBidHold_pos room hz
    refine ⟨?_, hmax, ?_, ?_⟩
    · rw [settleAuction_lastWinners]
      unfold settleWinners
      simp [hz, hmax]
    · intro w hw
      rw [settleAuction_lastWinners] at hw
      unfold settleWinners at hw
      simp only [hz, Bool.false_eq_true, if_false, hmax, if_pos] at hw
      rcases List.mem_map.mp hw with ⟨p, hp, rfl⟩
      refine ⟨p, List.mem_of_mem_filter hp, rfl, ?_⟩
      have hph : p.hold = maxBidHold room := by simpa using List.of_mem_filter hp
      omega
    · have hX : (room.players.map (auctionBidderUpdate room)).map (nonBidderRefund room)
          = room.players.map (fun p => nonBidderRefund room (auctionBidderUpdate room p)) := by
        rw [List.map_map]
        rfl
      have h1 : List.Forall₂ (fun p q =>
          p.name ∈ room.participants →
            q.hold = 0
            ∧ (p.name ∈ settleWinners room →
                q.balance = p.balance ∧ q.items = p.items ++ [room.currentItem])
            ∧ (p.name ∉ settleWinners room →
                q.balance = p.balance + p.hold ∧ q.items = p.items))
          room.players
          (room.players.map (fun p => nonBidderRefund room (auctionBidderUpdate room p))) :=
        forall2_map_self _ _ (fun p _ hpart => auctionUpdate_effect room p hz hpart)
      rw [← hX] at h1
      have h2 := nextRound_players_core { room with players := (room.players.map (auctionBidderUpdate room)).map (nonBidderRefund room) } (settleWinners room) room.currentItem rand
      dsimp only at h2
      unfold settleAuction
      refine forall2_comp ?_ _ _ _ h1 h2
      intro p q r hR hc hpart
      obtain ⟨hn, hb, hh, hi⟩ := hc
      obtain ⟨h0, hwin, hlose⟩ := hR hpart
      refine ⟨by rw [hh, h0], fun hw => ⟨by rw [hb, (hwin hw).1], by rw [hi, (hwin hw).2]⟩,
        fun hw => ⟨by rw [hb, (hlose hw).1], by rw [hi, (hlose hw).2]⟩⟩

/-- Demo room in the bid phase with all bids in: `A` holds 30000, `B` holds
20000, `D` declined (and already got the decline bonus). -/
def cRoom4 : Room :=
  { id := "R4", hostName := "A", hostSocketId := "s1", boardMode := false,
    started := true, gameOver := false, round := 0, phase := "bid",
    currentItem := "i", participants := ["A", "B"], lastWinners := [],
    lastItem := "", roundLogs := [], finalWinners := [],
    players :=
      [{ id := "P1", socketId := "s1", name := "A", balance := 70000, hold := 30000,
         bid := 30000, items := [], willParticipate := some true, readyPart := true,
         readyBid := true },
       { id := "P2", socketId := "s2", name := "B", balance := 80000, hold := 20000,
         bid := 20000, items := [], willParticipate := some true, readyPart := true,
         readyBid := true },
       { id := "P3", socketId := "s3", name := "D", balance := 1050000, hold := 0,
         bid := 0, items := [], willParticipate := some false, readyPart := true,
         readyBid := false }] }

/-- Witness for C4: at `cRoom4` the highest (positive) hold wins. -/
theorem claim_C4_witness :
    (settleAuction cRoom4 "x").lastWinners
      = ((roomBidders cRoom4).filter (fun p => p.hold == maxBidHold cRoom4)).map
          (fun p => p.name) :=
  ((claim_C4_auction_winners cRoom4 "x").2 (by decide)).1

theorem cancelUpdate_eq_bidRecord_zero (p : Player) : cancelUpdate p = bidRecord p 0 := by
  unfold cancelUpdate bidRecord bidValue
  have h0 : Int.fdiv 0 10000 * 10000 = 0 := by decide
  rw [h0]
  have hmin : ∀ M : Nat, (0 : Int) ⊓ (M : Int) = 0 :=
    fun M => min_eq_left (by exact_mod_cast Nat.zero_le M)
  simp [hmin]

theorem cancelBid_eq_confirmBid_zero (room : Room) (sockId rand : String) :
    cancelBid room sockId rand = confirmBid room sockId 0 rand := by
  unfold cancelBid confirmBid
  have hfun : cancelUpdate = fun p => bidRecord p 0 := funext cancelUpdate_eq_bidRecord_zero
  rw [hfun]

/-- Claim C9: for any room state and any eligible player (phase `bid`, not yet
`readyBid`, listed in `participants`), `game:cancelBid` produces exactly the
same room state as `game:confirmBid` with amount 0 — hold returned to balance,
hold and bid zeroed, `readyBid` set, followed by the same bid-settle check.
(The equality in fact holds without the eligibility hypotheses.) -/
theorem claim_C9_cancel_equiv_zero_bid (room : Room) (sockId rand : String) (p : Player)
    (hfind : room.players.find? (fun q => q.socketId == sockId) = some p)
    (hphase : room.phase = "bid") (hready : p.readyBid = false)
    (hpart : p.name ∈ room.participants) :
    cancelBid room sockId rand = confirmBid room sockId 0 rand :=
  cancelBid_eq_confirmBid_zero room sockId rand

/-- Demo room in the bid phase where `A` (socket `s1`) has not yet bid and `B`
has an escrowed bid of 20000. -/
def cRoom5 : Room :=
  { id := "R5", hostName := "A", hostSocketId := "s1", boardMode := false,
    started := true, gameOver := false, round := 0, phase := "bid",
    currentItem := "i", participants := ["A", "B"], lastWinners := [],
    lastItem := "", roundLogs := [], finalWinners := [],
    players :=
      [{ id := "P1", socketId := "s1", name := "A", balance := 100000, hold := 0,
         bid := 0, items := [], willParticipate := some true, readyPart := true,
         readyBid := false },
       { id := "P2", socketId := "s2", name := "B", balance := 80000, hold := 20000,
         bid := 20000, items := [], willParticipate := some true, readyPart := true,
         readyBid := true },
       { id := "P3", socketId := "s3", name := "D", balance := 1050000, hold := 0,
         bid := 0, items := [], willParticipate := some false, readyPart := true,
         readyBid := false }] }

/-- Witness for C9 at `cRoom5`, where `A` is eligible to bid. -/
theorem claim_C9_witness :
    cancelBid cRoom5 "s1" "x" = confirmBid cRoom5 "s1" 0 "x" :=
  claim_C9_cancel_equiv_zero_bid cRoom5 "s1" "x"
    { id := "P1", socketId := "s1", name := "A", balance := 100000, hold := 0,
      bid := 0, items := [], willParticipate := some true, readyPart := true,
      readyBid := false }
    (by decide) rfl rfl (by decide)

/-- Counterexample to C5 as stated: an accepted `game:confirmBid` can complete
the round, in which case the triggered settlement spends the winning hold, so
`balance + hold` of the bidder is not conserved across the whole handler.  At
`cRoom5`, `A` bids 30000 as the last pending bidder, wins, and ends with
70000 instead of the prior 100000. -/
theorem claim_C5_counterexample :
    ¬ (((confirmBid cRoom5 "s1" 30000 "x").players.headD default).balance
          + ((confirmBid cRoom5 "s1" 30000 "x").players.headD default).hold
        = (cRoom5.players.headD default).balance + (cRoom5.players.headD default).hold) := by
  decide

/-- Claim C5 (amended): for an accepted `game:confirmBid`, the bid-recording
step itself (before the triggered bid-settle check) yields a hold that is a
multiple of 10000, at most `balance + hold` before, and conserves
`balance + hold` — given the room invariant that `balance + hold` is a
multiple of 10000 (true in all reachable states: the initial 1000000, the
50000 bonus and all recorded bids are multiples of 10000).  Conservation
across the whole handler fails only when the bid completes the round and the
settlement spends the winning hold. -/
theorem claim_C5_amended_bid_clamp (p : Player) (amount : Int)
    (hdvd : 10000 ∣ p.balance + p.hold) :
    10000 ∣ (bidRecord p amount).hold
    ∧ (bidRecord p amount).hold ≤ p.balance + p.hold
    ∧ (bidRecord p amount).balance + (bidRecord p amount).hold = p.balance + p.hold := by
  unfold bidRecord bidValue
  dsimp only
  have hv0 : (0 : Int) ≤ max 0 (min (Int.fdiv amount 10000 * 10000) ((p.balance + p.hold : Nat) : Int)) :=
    le_max_left 0 _
  have hvle : max 0 (min (Int.fdiv amount 10000 * 10000) ((p.balance + p.hold : Nat) : Int))
      ≤ ((p.balance + p.hold : Nat) : Int) := by
    rcases le_total (Int.fdiv amount 10000 * 10000) ((p.balance + p.hold : Nat) : Int) with h | h
    · rw [min_eq_left h]
      rcases le_total (0 : Int) (Int.fdiv amount 10000 * 10000) with h2 | h2
      · rw [max_eq_right h2]
        exact h
      · rw [max_eq_left h2]
        exact_mod_cast Nat.zero_le _
    · rw [min_eq_right h, max_eq_right (by exact_mod_cast Nat.zero_le _)]
  have hdvdv : (10000 : Int) ∣ max 0 (min (Int.fdiv amount 10000 * 10000) ((p.balance + p.hold : Nat) : Int)) := by
    have hd1 : (10000 : Int) ∣ Int.fdiv amount 10000 * 10000 :=
      ⟨Int.fdiv amount 10000, mul_comm _ _⟩
    have hd2 : (10000 : Int) ∣ ((p.balance + p.hold : Nat) : Int) := by
      exact_mod_cast hdvd
    have hdmin : (10000 : Int) ∣ min (Int.fdiv amount 10000 * 10000) ((p.balance + p.hold : Nat) : Int) := by
      rcases le_total (Int.fdiv amount 10000 * 10000) ((p.balance + p.hold : Nat) : Int) with h | h
      · rw [min_eq_left h]; exact hd1
      · rw [min_eq_right h]; exact hd2
    rcases le_total (0 : Int) (min (Int.fdiv amount 10000 * 10000) ((p.balance + p.hold : Nat) : Int)) with h | h
    · rw [max_eq_right h]; exact hdmin
    · rw [max_eq_left h]; exact dvd_zero _
  have htoNat_le : (max 0 (min (Int.fdiv amount 10000 * 10000) ((p.balance + p.hold : Nat) : Int))).toNat
      ≤ p.balance + p.hold := Int.toNat_le.mpr hvle
  refine ⟨?_, htoNat_le, ?_⟩
  · have hcast : ((max 0 (min (Int.fdiv amount 10000 * 10000) ((p.balance + p.hold : Nat) : Int))).toNat : Int)
        = max 0 (min (Int.fdiv amount 10000 * 10000) ((p.balance + p.hold : Nat) : Int)) :=
      Int.toNat_of_nonneg hv0
    have := hdvdv
    rw [← hcast] at this
    exact_mod_cast this
  · omega

/-- A concrete idle bidder used by the C5 witness. -/
def cPlayerA : Player :=
  { id := "P1", socketId := "s1", name := "A", balance := 100000, hold := 0, bid := 0,
    items := [], willParticipate := some true, readyPart := true, readyBid := false }

/-- Witness for the amended C5 at a concrete player and a rough amount. -/
theorem claim_C5_witness :
    10000 ∣ (bidRecord cPlayerA 123456).hold
    ∧ (bidRecord cPlayerA 123456).hold ≤ cPlayerA.balance + cPlayerA.hold
    ∧ (bidRecord cPlayerA 123456).balance + (bidRecord cPlayerA 123456).hold
      = cPlayerA.balance + cPlayerA.hold :=
  claim_C5_amended_bid_clamp cPlayerA 123456 (by decide)

/-- Counterexample to C7: `game:setItem` checks `started` and `boardMode` but
not `gameOver`, so after a host-forced game end the host can still mutate the
room (here: change the current item), contradicting "no action is accepted
... when gameOver is true". -/
theorem claim_C7_counterexample :
    (gameEnd demoBoardStarted "s1").1.gameOver = true
    ∧ setItem (gameEnd demoBoardStarted "s1").1 "s1" "b" ≠ (gameEnd demoBoardStarted "s1").1 := by
  exact ⟨by decide, by decide⟩

/-- Claim C7 (amended): `lockPart`, `confirmBid` and `cancelBid` are rejected
(state unchanged) whenever `started` is false or `gameOver` is true;
`setItem` is rejected when `started` is false, but is still accepted after
`gameOver` (the handler only checks `started`, `boardMode` and the host). -/
theorem claim_C7_amended_gating :
    (∀ room sockId item, room.started = false → setItem room sockId item = room)
    ∧ (∀ room sockId will r1 r2, room.started = false ∨ room.gameOver = true →
        lockPart room sockId will r1 r2 = room)
    ∧ (∀ room sockId amount rand, room.started = false ∨ room.gameOver = true →
        confirmBid room sockId amount rand = room)
    ∧ (∀ room sockId rand, room.started = false ∨ room.gameOver = true →
        cancelBid room sockId rand = room) := by
  refine ⟨?_, ?_, ?_, ?_⟩
  · intro room sockId item h
    unfold setItem
    rw [if_pos (Or.inl (by simp [h]))]
  · intro room sockId will r1 r2 h
    unfold lockPart
    rcases h with h | h
    · rw [if_pos (Or.inl (by simp [h]))]
    · rw [if_pos (Or.inr (Or.inl h))]
  · intro room sockId amount rand h
    unfold confirmBid
    rcases h with h | h
    · rw [if_pos (Or.inl (by simp [h]))]
    · rw [if_pos (Or.inr (Or.inl h))]
  · intro room sockId rand h
    unfold cancelBid
    rcases h with h | h
    · rw [if_pos (Or.inl (by simp [h]))]
    · rw [if_pos (Or.inr (Or.inl h))]

/-- Witness for the amended C7 at the not-yet-started `demoLobby`. -/
theorem claim_C7_witness :
    setItem demoLobby "s1" "q" = demoLobby
    ∧ lockPart demoLobby "s1" true "x" "y" = demoLobby
    ∧ confirmBid demoLobby "s1" 30000 "x" = demoLobby
    ∧ cancelBid demoLobby "s1" "x" = demoLobby :=
  ⟨claim_C7_amended_gating.1 demoLobby "s1" "q" (by decide),
   claim_C7_amended_gating.2.1 demoLobby "s1" true "x" "y" (Or.inl (by decide)),
   claim_C7_amended_gating.2.2.1 demoLobby "s1" 30000 "x" (Or.inl (by decide)),
   claim_C7_amended_gating.2.2.2 demoLobby "s1" "x" (Or.inl (by decide))⟩

/-- Counterexample to C2: `demoStarted` contains the host (socket `s1`) and
two other players, yet when the host leaves, `handleLeave` deletes the room
(`none`) instead of promoting the next player. -/
theorem claim_C2_counterexample :
    demoStarted.hostSocketId = "s1"
    ∧ 2 ≤ demoStarted.players.length
    ∧ handleLeave demoStarted "s1" = none := by
  exact ⟨by decide, by decide, by decide⟩

/-- Claim C2 (amended): when the player leaving (matched by current socket id)
is the host, the room is always deleted, even if other players remain — the
promotion branch of `handleLeave` is unreachable; consequently any room that
survives a leave keeps its `hostName` and `hostSocketId` unchanged. -/
theorem claim_C2_amended_host_leave :
    (∀ room sockId, (room.players.findIdx? (fun p => p.socketId == sockId)).isSome →
        sockId = room.hostSocketId → handleLeave room sockId = none)
    ∧ (∀ room sockId r, handleLeave room sockId = some r →
        r.hostName = room.hostName ∧ r.hostSocketId = room.hostSocketId) := by
  constructor
  · intro room sockId hfound hhost
    unfold handleLeave
    rcases hidx : room.players.findIdx? (fun p => p.socketId == sockId) with _ | idx
    · rw [hidx] at hfound
      simp at hfound
    · subst hhost
      simp [hidx]
  · intro room sockId r h
    unfold handleLeave at h
    rcases hidx : room.players.findIdx? (fun p => p.socketId == sockId) with _ | idx
    · rw [hidx] at h
      simp only [Option.some.injEq] at h
      rw [← h]
      exact ⟨rfl, rfl⟩
    · rw [hidx] at h
      simp only [] at h
      by_cases hw : (sockId == room.hostSocketId) = true
      · rw [if_pos (Or.inl hw)] at h
        cases h
      · by_cases hlen : (room.players.eraseIdx idx).length = 0
        · rw [if_pos (Or.inr hlen)] at h
          cases h
        · rw [if_neg (by simp [hw, hlen])] at h
          rw [if_neg (by simp [hw])] at h
          simp only [Option.some.injEq] at h
          rw [← h]
          exact ⟨rfl, rfl⟩

/-- Witness for the amended C2: the host of the board-mode demo room leaves
and the room is deleted. -/
theorem claim_C2_witness : handleLeave demoBoardStarted "s1" = none :=
  claim_C2_amended_host_leave.1 demoBoardStarted "s1" (by decide) (by decide)

theorem forall2_map_gen {α β : Type} {R : α → β → Prop} (f : α → β) (ps : List α)
    (h : ∀ p ∈ ps, R p (f p)) : List.Forall₂ R ps (ps.map f) := by
  induction ps with
  | nil => simp
  | cons p ps ih =>
    simp only [List.map_cons]
    exact List.Forall₂.cons (h p (by simp)) (ih (fun q hq => h q (by simp [hq])))

/-- Counterexample to C6: the `game:ended` message of the host-forced
`game:end` handler carries `sanitizeRoom(room)` with no recipient, so even
though `gameOver` is true in the payload, every player's balance is `null`
there — nothing is revealed — while the real balances are 1000000. -/
theorem claim_C6_counterexample :
    ((gameEnd demoStarted "s1").2.map (fun s => s.gameOver)) = some true
    ∧ ((gameEnd demoStarted "s1").2.map (fun s => s.players.map (fun sp => sp.balance)))
        = some [none, none, none]
    ∧ demoStarted.players.map (fun p => p.balance) = [1000000, 1000000, 1000000] := by
  exact ⟨by decide, by decide, by decide⟩

/-- Claim C6 (amended): per-recipient projections show `balance`, `hold` and
`items` only for the recipient's own entry (others get `null` plus an item
count); the `game:ended` payload of a *natural* game end (in `nextRound`)
carries the raw player records, revealing every balance and item list; but the
`game:ended` payload of the host-forced `game:end` handler is a projection
with no recipient, in which every player's `balance`, `hold` and `items` are
`null`. -/
theorem claim_C6_amended_visibility :
    (∀ room viewer, List.Forall₂ (fun (p : Player) (sp : SanPlayer) =>
        sp.name = p.name ∧ sp.itemCount = p.items.length
        ∧ sp.balance = (if p.name = viewer then some p.balance else none)
        ∧ sp.hold = (if p.name = viewer then some p.hold else none)
        ∧ sp.items = (if p.name = viewer then some p.items else none))
      room.players (sanitizeRoom room (some viewer)).players)
    ∧ (∀ room, (finalRoomPayloadPlayers room).map (fun p => p.balance)
          = room.players.map (fun p => p.balance)
        ∧ (finalRoomPayloadPlayers room).map (fun p => p.items)
          = room.players.map (fun p => p.items))
    ∧ (∀ room sockId r2 san, gameEnd room sockId = (r2, some san) →
        san.players.map (fun sp => sp.balance) = room.players.map (fun _ => none)
        ∧ san.players.map (fun sp => sp.hold) = room.players.map (fun _ => none)
        ∧ san.players.map (fun sp => sp.items) = room.players.map (fun _ => none)) := by
  refine ⟨?_, ?_, ?_⟩
  · intro room viewer
    unfold sanitizeRoom
    dsimp only
    apply forall2_map_gen
    intro p hp
    refine ⟨rfl, rfl, ?_, ?_, ?_⟩ <;> by_cases h : p.name = viewer <;> simp [h]
  · intro room
    unfold finalRoomPayloadPlayers
    constructor <;> rw [List.map_map] <;> rfl
  · intro room sockId r2 san h
    unfold gameEnd at h
    by_cases hs : sockId ≠ room.hostSocketId
    · rw [if_pos hs] at h
      simp at h
    · rw [if_neg hs] at h
      have hsan : san = sanitizeRoom { room with gameOver := true } none := by
        have h2 := congrArg Prod.snd h
        simp at h2
        exact h2.symm
      subst hsan
      unfold sanitizeRoom
      dsimp only
      refine ⟨?_, ?_, ?_⟩ <;> rw [List.map_map] <;> rfl

/-- Witness for the amended C6: the host-forced end of the board-mode demo
room hides every balance in its emitted payload. -/
theorem claim_C6_witness :
    (sanitizeRoom { demoBoardStarted with gameOver := true } none).players.map
        (fun sp => sp.balance)
      = demoBoardStarted.players.map (fun _ => none) :=
  (claim_C6_amended_visibility.2.2 demoBoardStarted "s1"
    { demoBoardStarted with gameOver := true }
    (sanitizeRoom { demoBoardStarted with gameOver := true } none) (by decide)).1

/-- Counterexample to C8: the stored `roundLogs` is never evicted.  Starting
from the reachable `demoStarted` (create, two joins, start) and playing 31
no-participation rounds, the stored history has 31 entries, exceeding every
capacity in the claimed 10–30 range; only the sanitized projection is
truncated. -/
theorem claim_C8_counterexample :
    30 < (stepRound^[31] demoStarted).roundLogs.length := by
  decide

/-- Claim C8 (amended): the stored `roundLogs` grows by exactly one entry per
completed round, without bound (no eviction); boundedness holds only for the
sanitized projection, which carries the last at most 10 entries
(`roundLogs.slice(-10)`). -/
theorem claim_C8_amended_roundlogs :
    (∀ room w i rand, (nextRound room w i rand).roundLogs.length
        = room.roundLogs.length + 1)
    ∧ (∀ room fp, (sanitizeRoom room fp).roundLogs.length ≤ 10
        ∧ (sanitizeRoom room fp).roundLogs
            = room.roundLogs.drop (room.roundLogs.length - 10)) := by
  constructor
  · exact nextRound_roundLogs_length
  · intro room fp
    constructor
    · unfold sanitizeRoom
      dsimp only
      rw [List.length_drop]
      omega
    · rfl

/-- Claim C10: every Player — created as host by `room:create` or as a joiner
by `room:join` — starts with balance 1000000, hold 0, bid 0, no items,
`willParticipate` unset and both ready flags false.  (The starting balance is
stated nowhere in the spec; it is fixed here from the source.) -/
theorem claim_C10_initial_player :
    (∀ hn bm sid rid room2, roomCreate hn bm sid rid = some room2 →
        room2.players.length = 1
        ∧ (room2.players.headD default).balance = 1000000
        ∧ (room2.players.headD default).hold = 0
        ∧ (room2.players.headD default).bid = 0
        ∧ (room2.players.headD default).items = []
        ∧ (room2.players.headD default).willParticipate = none
        ∧ (room2.players.headD default).readyPart = false
        ∧ (room2.players.headD default).readyBid = false)
    ∧ (∀ room sid pn, (roomJoin room sid pn).players.length = room.players.length + 1 →
        (roomJoin room sid pn).players.dropLast = room.players
        ∧ ((roomJoin room sid pn).players.getLastD default).balance = 1000000
        ∧ ((roomJoin room sid pn).players.getLastD default).hold = 0
        ∧ ((roomJoin room sid pn).players.getLastD default).bid = 0
        ∧ ((roomJoin room sid pn).players.getLastD default).items = []
        ∧ ((roomJoin room sid pn).players.getLastD default).willParticipate = none
        ∧ ((roomJoin room sid pn).players.getLastD default).readyPart = false
        ∧ ((roomJoin room sid pn).players.getLastD default).readyBid = false) := by
  constructor
  · intro hn bm sid rid room2 h
    unfold roomCreate at h
    by_cases ht : trimName hn = ""
    · rw [if_pos ht] at h
      cases h
    · rw [if_neg ht] at h
      dsimp only at h
      rcases h with ⟨rfl⟩
      exact ⟨rfl, rfl, rfl, rfl, rfl, rfl, rfl, rfl⟩
  · intro room sid pn h
    by_cases hname : ((trimName pn).take 10) = ""
    · exfalso
      have heq : roomJoin room sid pn = room := by
        unfold roomJoin
        dsimp only
        rw [if_pos hname]
      rw [heq] at h
      omega
    · rcases hfind : room.players.find? (fun p => p.name == (trimName pn).take 10) with _ | q
      · by_cases hst : room.started = true
        · exfalso
          have heq : roomJoin room sid pn = room := by
            unfold roomJoin
            dsimp only
            rw [if_neg hname, hfind]
            dsimp only
            rw [if_pos hst]
          rw [heq] at h
          omega
        · by_cases hfull : 8 ≤ room.players.length
          · exfalso
            have heq : roomJoin room sid pn = room := by
              unfold roomJoin
              dsimp only
              rw [if_neg hname, hfind]
              dsimp only
              rw [if_neg hst, if_pos hfull]
            rw [heq] at h
            omega
          · have hjoin : (roomJoin room sid pn).players = room.players ++
                [{ id := "P" ++ toString (room.players.length + 1), socketId := sid,
                   name := (trimName pn).take 10, balance := 1000000, hold := 0, bid := 0,
                   items := [], willParticipate := none, readyPart := false,
                   readyBid := false }] := by
              unfold roomJoin
              dsimp only
              rw [if_neg hname, hfind]
              dsimp only
              rw [if_neg hst, if_neg hfull]
            rw [hjoin]
            refine ⟨?_, ?_, ?_, ?_, ?_, ?_, ?_, ?_⟩ <;> simp
      · exfalso
        have heq : (roomJoin room sid pn).players
            = updFirst (fun p => p.name == (trimName pn).take 10)
                (fun p => { p with socketId := sid }) room.players := by
          unfold roomJoin
          dsimp only
          rw [if_neg hname, hfind]
        rw [heq, updFirst_length] at h
        omega

/-- Witness for C10 at the concrete `room:create` that builds `demoLobby`. -/
theorem claim_C10_witness :
    demoLobby.players.length = 1
    ∧ (demoLobby.players.headD default).balance = 1000000
    ∧ (demoLobby.players.headD default).hold = 0
    ∧ (demoLobby.players.headD default).bid = 0
    ∧ (demoLobby.players.headD default).items = []
    ∧ (demoLobby.players.headD default).willParticipate = none
    ∧ (demoLobby.players.headD default).readyPart = false
    ∧ (demoLobby.players.headD default).readyBid = false :=
  claim_C10_initial_player.1 "A" false "s1" "RA" demoLobby (by decide)

theorem cpaRoom2_players (room : Room) (r1 : String) :
    (cpaRoom2 room r1).players = room.players := by
  unfold cpaRoom2 cpaRoom1
  split <;> rfl

theorem cpaRoom2_round (room : Room) (r1 : String) :
    (cpaRoom2 room r1).round = room.round := by
  unfold cpaRoom2 cpaRoom1
  split <;> rfl

theorem cpaRoom2_phase (room : Room) (r1 : String) :
    (cpaRoom2 room r1).phase = room.phase := by
  unfold cpaRoom2 cpaRoom1
  split <;> rfl

theorem cpaRoom2_participants (room : Room) (r1 : String) :
    (cpaRoom2 room r1).participants = partNames room := by
  unfold cpaRoom2 cpaRoom1
  split <;> rfl

theorem settleSingleBidder_round (room : Room) (w rand : String) :
    (settleSingleBidder room w rand).round = room.round + 1 := by
  unfold settleSingleBidder
  rw [nextRound_round]

theorem settleSingleBidder_lastWinners (room : Room) (w rand : String) :
    (settleSingleBidder room w rand).lastWinners = [w] := by
  unfold settleSingleBidder
  rw [nextRound_lastWinners]

theorem settleSingleBidder_lastItem (room : Room) (w rand : String) :
    (settleSingleBidder room w rand).lastItem = room.currentItem := by
  unfold settleSingleBidder
  rw [nextRound_lastItem]

theorem settleSingleBidder_phase (room : Room) (w rand : String)
    (h : room.phase = "choose") :
    (settleSingleBidder room w rand).phase = "choose" := by
  unfold settleSingleBidder
  exact nextRound_phase _ _ _ _ h

theorem updFirst_mem (pred : Player → Bool) (f : Player → Player) (ps : List Player)
    (p : Player) (hp : p ∈ ps) (hpred : pred p = true)
    (huniq : ∀ q ∈ ps, pred q = true → q = p) :
    f p ∈ updFirst pred f ps := by
  induction ps with
  | nil => cases hp
  | cons a ps ih =>
    cases hpa : pred a with
    | true =>
      have hap : a = p := huniq a (by simp) hpa
      subst hap
      simp [updFirst, hpa]
    | false =>
      rcases List.mem_cons.mp hp with rfl | hp2
      · rw [hpred] at hpa
        cases hpa
      · have hmem := ih hp2 (fun q hq hqq => huniq q (by simp [hq]) hqq)
        have hstep : updFirst pred f (a :: ps) = a :: updFirst pred f ps := by
          simp [updFirst, hpa]
        rw [hstep]
        exact List.mem_cons_of_mem _ hmem

theorem settleSingleBidder_winner_mem (room : Room) (w rand : String) (p : Player)
    (hp : p ∈ room.players) (hname : p.name = w)
    (hnodup : (room.players.map (fun q => q.name)).Nodup) :
    ∃ q ∈ (settleSingleBidder room w rand).players,
      q.name = p.name ∧ q.items = p.items ++ [room.currentItem]
      ∧ q.balance + q.hold = p.balance + p.hold := by
  have huniq : ∀ q ∈ room.players, (fun x => x.name == w) q = true → q = p := by
    intro q hq hqw
    have hqw2 : q.name = w := by simpa using hqw
    exact List.inj_on_of_nodup_map hnodup hq hp (by rw [hqw2, hname])
  have h1 : singleWinnerUpdate room.currentItem p
      ∈ updFirst (fun x => x.name == w) (singleWinnerUpdate room.currentItem) room.players :=
    updFirst_mem _ _ _ p hp (by simp [hname]) huniq
  have h2 : singleOtherRefund w (singleWinnerUpdate room.currentItem p)
      ∈ (updFirst (fun x => x.name == w) (singleWinnerUpdate room.currentItem)
          room.players).map (singleOtherRefund w) :=
    List.mem_map_of_mem _ h1
  have h3 : singleOtherRefund w (singleWinnerUpdate room.currentItem p)
      = singleWinnerUpdate room.currentItem p := by
    unfold singleOtherRefund
    rw [if_neg]
    simp [singleWinnerUpdate, hname]
  rw [h3] at h2
  unfold settleSingleBidder
  rcases nextRound_players { room with players := (updFirst (fun x => x.name == w) (singleWinnerUpdate room.currentItem) room.players).map (singleOtherRefund w) } [w] room.currentItem rand with hc | hc
  · refine ⟨singleWinnerUpdate room.currentItem p, ?_, rfl, rfl, by simp [singleWinnerUpdate]⟩
    rw [hc]
    exact h2
  · refine ⟨resetPlayer (singleWinnerUpdate room.currentItem p), ?_, rfl, rfl,
      by simp [singleWinnerUpdate, resetPlayer]⟩
    rw [hc]
    exact List.mem_map_of_mem _ h2

/-- Claim C3: in phase `choose`, no phase change occurs until every player
(not only participants) is ready; once every player has `readyPart`, exactly
one of three outcomes occurs, determined by the number of players with
`willParticipate == true`: zero participants advance the round with no winners
and no bid phase; exactly one participant immediately wins the current item at
zero cost (their `balance + hold` unchanged, item appended) with no bid phase;
two or more participants switch the room to phase `bid` with players and round
untouched. -/
theorem claim_C3_phase_advance (room : Room) (r1 r2 : String)
    (hphase : room.phase = "choose")
    (hnodup : (room.players.map (fun p => p.name)).Nodup) :
    (room.players.all (fun p => p.readyPart) = false → checkPhaseAdvance room r1 r2 = room)
    ∧ (room.players.all (fun p => p.readyPart) = true →
        ((partNames room).length = 0 →
            (checkPhaseAdvance room r1 r2).round = room.round + 1
            ∧ (checkPhaseAdvance room r1 r2).lastWinners = []
            ∧ (checkPhaseAdvance room r1 r2).phase = "choose")
        ∧ ((partNames room).length = 1 →
            (checkPhaseAdvance room r1 r2).round = room.round + 1
            ∧ (checkPhaseAdvance room r1 r2).lastWinners = partNames room
            ∧ (checkPhaseAdvance room r1 r2).phase = "choose"
            ∧ totalMoney (checkPhaseAdvance room r1 r2).players = totalMoney room.players
            ∧ ∃ p q, p ∈ room.players ∧ q ∈ (checkPhaseAdvance room r1 r2).players
                ∧ partNames room = [p.name]
                ∧ q.name = p.name
                ∧ q.items = p.items ++ [(checkPhaseAdvance room r1 r2).lastItem]
                ∧ q.balance + q.hold = p.balance + p.hold)
        ∧ (2 ≤ (partNames room).length →
            (checkPhaseAdvance room r1 r2).phase = "bid"
            ∧ (checkPhaseAdvance room r1 r2).round = room.round
            ∧ (checkPhaseAdvance room r1 r2).players = room.players
            ∧ (checkPhaseAdvance room r1 r2).participants = partNames room)) := by
  have hnotphase : ¬ room.phase ≠ "choose" := by simp [hphase]
  constructor
  · intro hnr
    unfold checkPhaseAdvance
    rw [if_neg hnotphase, if_pos hnr]
  · intro hready
    have hnotready : ¬ room.players.all (fun p => p.readyPart) = false := by simp [hready]
    refine ⟨?_, ?_, ?_⟩
    · intro hlen
      have heq : checkPhaseAdvance room r1 r2
          = nextRound (cpaRoom2 room r1) [] (cpaRoom2 room r1).currentItem r2 := by
        unfold checkPhaseAdvance
        rw [if_neg hnotphase, if_neg hnotready, if_pos hlen]
      refine ⟨?_, ?_, ?_⟩
      · rw [heq, nextRound_round, cpaRoom2_round]
      · rw [heq, nextRound_lastWinners]
      · rw [heq]
        exact nextRound_phase _ _ _ _ (by rw [cpaRoom2_phase]; exact hphase)
    · intro hlen
      have heq : checkPhaseAdvance room r1 r2
          = settleSingleBidder (cpaRoom2 room r1) ((partNames room).headD "") r2 := by
        unfold checkPhaseAdvance
        rw [if_neg hnotphase, if_neg hnotready, if_neg (by omega), if_pos hlen]
      rcases List.length_eq_one.mp hlen with ⟨a, ha⟩
      have hhead : (partNames room).headD "" = a := by rw [ha]; rfl
      have hamem : a ∈ partNames room := by rw [ha]; simp
      rcases List.mem_map.mp hamem with ⟨p, hpf, hpname⟩
      have hpmem : p ∈ room.players := List.mem_of_mem_filter hpf
      refine ⟨?_, ?_, ?_, ?_, ?_⟩
      · rw [heq, settleSingleBidder_round, cpaRoom2_round]
      · rw [heq, settleSingleBidder_lastWinners, hhead, ha]
      · rw [heq]
        exact settleSingleBidder_phase _ _ _ (by rw [cpaRoom2_phase]; exact hphase)
      · rw [heq, settleSingleBidder_money, cpaRoom2_players]
      · have hnodup2 : ((cpaRoom2 room r1).players.map (fun q => q.name)).Nodup := by
          rw [cpaRoom2_players]
          exact hnodup
        have hp2 : p ∈ (cpaRoom2 room r1).players := by
          rw [cpaRoom2_players]
          exact hpmem
        rcases settleSingleBidder_winner_mem (cpaRoom2 room r1) ((partNames room).headD "")
            r2 p hp2 (by rw [hhead, hpname]) hnodup2 with ⟨q, hqmem, hqname, hqitems, hqmoney⟩
        refine ⟨p, q, hpmem, ?_, ?_, hqname, ?_, hqmoney⟩
        · rw [heq]
          exact hqmem
        · rw [ha, hpname]
        · rw [heq, settleSingleBidder_lastItem]
          exact hqitems
    · intro hlen
      have heq : checkPhaseAdvance room r1 r2 = { cpaRoom2 room r1 with phase := "bid" } := by
        unfold checkPhaseAdvance
        rw [if_neg hnotphase, if_neg hnotready, if_neg (by omega), if_neg (by omega)]
      rw [heq]
      exact ⟨rfl, cpaRoom2_round room r1, cpaRoom2_players room r1,
        cpaRoom2_participants room r1⟩

/-- A choose-phase room where everyone is ready: `A` and `B` opt in, `C` out. -/
def cRoom3 : Room :=
  { id := "R3", hostName := "A", hostSocketId := "s1", boardMode := false,
    started := true, gameOver := false, round := 0, phase := "choose",
    currentItem := "i", participants := [], lastWinners := [],
    lastItem := "", roundLogs := [], finalWinners := [],
    players :=
      [{ id := "P1", socketId := "s1", name := "A", balance := 1000000, hold := 0,
         bid := 0, items := [], willParticipate := some true, readyPart := true,
         readyBid := false },
       { id := "P2", socketId := "s2", name := "B", balance := 1000000, hold := 0,
         bid := 0, items := [], willParticipate := some true, readyPart := true,
         readyBid := false },
       { id := "P3", socketId := "s3", name := "C", balance := 1050000, hold := 0,
         bid := 0, items := [], willParticipate := some false, readyPart := true,
         readyBid := false }] }

/-- Witness for C3: with two participants ready at `cRoom3`, the phase-advance
check enters the bid phase. -/
theorem claim_C3_witness :
    (checkPhaseAdvance cRoom3 "x" "y").phase = "bid"
    ∧ (checkPhaseAdvance cRoom3 "x" "y").round = cRoom3.round
    ∧ (checkPhaseAdvance cRoom3 "x" "y").players = cRoom3.players
    ∧ (checkPhaseAdvance cRoom3 "x" "y").participants = partNames cRoom3 :=
  ((claim_C3_phase_advance cRoom3 "x" "y" rfl (by decide)).2 (by decide)).2.2 (by decide)
